import Mathlib

/-!
Verification of the TOM-DAX frontend against its natural-language
specification.  The repository is a React/MUI frontend; the parts with
checkable logic are:

* `src/utils/translationUtils.ts` — Turkish detection and dictionary
  fallback translation (`isTurkishText`, `translateTurkishToEnglishWithLLM`,
  `simpleDictionaryTranslate`, `smartTranslateTurkishToEnglish`);
* the `DataThread` view — construction and sorting of the leaf-table list
  (`leafTables`, `getAncestorOrders`, the sort comparator);
* the fetch handlers of `NLPChat.tsx` and `DatabaseIndexer.tsx` —
  state updates on success / failure of each request, and the
  progress-polling interval of `handleIndexDatabase`.

JavaScript strings are embedded as `List Char` (sequences of code points).
Asynchronous fetches are embedded by passing the settled outcome of the
request explicitly: an `Except Unit _` (or a dedicated outcome type) whose
error case covers a network rejection, and whose payload is the parsed
JSON body.  Numbers that the code only ever uses as exact decimals
(translation confidences) are embedded as `Rat`.
-/

namespace TomDax

/-! JavaScript string primitives used by translationUtils.ts -/

/-- Per-character lowering table of JavaScript
String.prototype.toLowerCase, restricted to the alphabet the translation
utilities manipulate: the ASCII uppercase letters and the uppercase
Turkish letters.  Note the JavaScript peculiarity that the dotted capital
I lowers to the two code points i + U+0307 (combining dot above). -/
def jsLowerMap : List (Char × List Char) :=
  [('A', ['a']), ('B', ['b']), ('C', ['c']), ('D', ['d']), ('E', ['e']),
   ('F', ['f']), ('G', ['g']), ('H', ['h']), ('I', ['i']), ('J', ['j']),
   ('K', ['k']), ('L', ['l']), ('M', ['m']), ('N', ['n']), ('O', ['o']),
   ('P', ['p']), ('Q', ['q']), ('R', ['r']), ('S', ['s']), ('T', ['t']),
   ('U', ['u']), ('V', ['v']), ('W', ['w']), ('X', ['x']), ('Y', ['y']),
   ('Z', ['z']),
   ('Ç', ['ç']), ('Ğ', ['ğ']), ('İ', ['i', '̇']), ('Ö', ['ö']),
   ('Ş', ['ş']), ('Ü', ['ü'])]

/-- The uppercase letters of the modelled alphabet (the domain of
`jsLowerMap`). -/
def upperLetters : List Char := jsLowerMap.map (fun p => p.1)

/-- Lower a single character as JavaScript toLowerCase does (identity
outside the modelled alphabet). -/
def jsCharToLower (c : Char) : List Char :=
  match jsLowerMap.find? (fun p => p.1 == c) with
  | some p => p.2
  | none => [c]

/-- Model of JavaScript String.prototype.toLowerCase. -/
def jsToLower (l : List Char) : List Char :=
  (l.map jsCharToLower).flatten

/-- Exact prefix test on character lists. -/
def isPrefixList : List Char → List Char → Bool
  | [], _ => true
  | _ :: _, [] => false
  | a :: w, b :: l => a == b && isPrefixList w l

/-- Model of JavaScript String.prototype.includes: `jsIncludes w l` is
true when `w` occurs as a contiguous substring of `l`. -/
def jsIncludes (w : List Char) : List Char → Bool
  | [] => isPrefixList w []
  | c :: rest => isPrefixList w (c :: rest) || jsIncludes w rest

/-- Whitespace stripped by JavaScript String.prototype.trim. -/
def jsIsWhitespace (c : Char) : Bool :=
  c == ' ' || c == '\t' || c == '\n' || c == '\r' || c == '\u000b' || c == '\u000c'

/-- Model of JavaScript String.prototype.trim. -/
def jsTrim (l : List Char) : List Char :=
  ((l.dropWhile jsIsWhitespace).reverse.dropWhile jsIsWhitespace).reverse

/-! translationUtils.ts: Turkish detection -/

/-- The character class of the regex /[çğıöşüÇĞIİÖŞÜ]/ in isTurkishText. -/
def turkishChars : List Char := "çğıöşüÇĞIİÖŞÜ".data

/-- The fixed list `turkishWords` of isTurkishText. -/
def turkishWords : List (List Char) :=
  (["müşteri", "satış", "ürün", "göster", "listele", "topla", "hesapla",
    "bul", "ara", "en", "çok", "az", "büyük", "küçük", "tarih", "ay",
    "yıl", "gün", "toplam", "ortalama", "maksimum", "minimum", "aktif",
    "pasif", "şirket", "çalışan", "departman", "sipariş", "gelir", "kar",
    "stok", "envanter", "kategori", "marka", "nedir", "nerede", "nasıl",
    "hangi", "kadar", "tane", "adet", "olan", "olmayan", "ile", "ve",
    "veya", "den", "dan", "a", "e", "da", "de", "ta", "te"] : List String).map
    String.data

/-- Embedding of `isTurkishText` from translationUtils.ts: empty text is
not Turkish; otherwise the text is Turkish when it contains a Turkish
character, or when its lowercased form contains one of `turkishWords` as
a substring. -/
def isTurkishText (text : List Char) : Bool :=
  if text.isEmpty then false
  else if text.any (fun c => turkishChars.contains c) then true
  else turkishWords.any (fun w => jsIncludes w (jsToLower text))

/-! translationUtils.ts: dictionary fallback translation -/

/-- Word characters of JavaScript regex \b boundaries ([A-Za-z0-9_]). -/
def isWordChar (c : Char) : Bool :=
  ('a' ≤ c && c ≤ 'z') || ('A' ≤ c && c ≤ 'Z') || ('0' ≤ c && c ≤ '9') || c == '_'

/-- Wordness of an optional neighbouring character (text edges count as
non-word, as in JavaScript regexes). -/
def wordCharOpt : Option Char → Bool
  | none => false
  | some c => isWordChar c

/-- Simple case fold used to model the i flag of the replacement regexes
in simpleDictionaryTranslate. -/
def foldChar (c : Char) : Char :=
  if 'A' ≤ c && c ≤ 'Z' then Char.ofNat (c.toNat + 32)
  else if c == 'Ç' then 'ç'
  else if c == 'Ğ' then 'ğ'
  else if c == 'Ö' then 'ö'
  else if c == 'Ş' then 'ş'
  else if c == 'Ü' then 'ü'
  else c

/-- Case-insensitive prefix match of a pattern against the text. -/
def ciMatch : List Char → List Char → Bool
  | [], _ => true
  | _ :: _, [] => false
  | a :: w, b :: l => foldChar a == foldChar b && ciMatch w l

/-- One global, word-boundary, case-insensitive replacement pass: the
model of `translatedText.replace(new RegExp("\\b" + turkish + "\\b", "gi"),
english)` in simpleDictionaryTranslate.  `prev` is the character
immediately before the current position (none at the start of the text).
The fuel argument only makes the recursion structural; callers pass
enough fuel that it never runs out (every step consumes at least one
character of the text because the dictionary keys are nonempty). -/
def replaceWordFuel (w repl : List Char) : Nat → Option Char → List Char → List Char
  | 0, _, l => l
  | _ + 1, _, [] => []
  | fuel + 1, prev, c :: rest =>
    if ciMatch w (c :: rest)
        && (wordCharOpt prev != isWordChar c)
        && (isWordChar (((c :: rest).take w.length).getLastD c)
            != wordCharOpt ((c :: rest).drop w.length).head?)
    then repl ++ replaceWordFuel w repl fuel
          (((c :: rest).take w.length).getLast?) ((c :: rest).drop w.length)
    else c :: replaceWordFuel w repl fuel (some c) rest

/-- Global word-boundary replacement of `w` by `repl` in `l`. -/
def replaceWord (w repl l : List Char) : List Char :=
  replaceWordFuel w repl (l.length + 1) none l

/-- The basicDictionary of simpleDictionaryTranslate, in object-literal
order (the order Object.entries iterates it in). -/
def basicDictionary : List (List Char × List Char) :=
  ([("göster", "show"), ("bul", "find"), ("listele", "list"),
    ("en çok", "most"), ("en az", "least"), ("müşteri", "customer"),
    ("müşteriler", "customers"), ("satış", "sales"), ("ürün", "product"),
    ("ürünler", "products"), ("toplam", "total"), ("ortalama", "average"),
    ("maksimum", "maximum"), ("minimum", "minimum"), ("tarih", "date"),
    ("ay", "month"), ("yıl", "year"), ("gün", "day"), ("stok", "inventory"),
    ("gelir", "revenue"), ("kar", "profit"), ("aktif", "active"),
    ("pasif", "inactive"), ("şirket", "company"), ("çalışan", "employee"),
    ("çalışanlar", "employees"), ("departman", "department"),
    ("sipariş", "order"), ("siparişler", "orders"), ("kategori", "category"),
    ("marka", "brand"), ("nedir", "what is"), ("nerede", "where"),
    ("nasıl", "how"), ("hangi", "which"), ("kadar", "how much"),
    ("tane", "count"), ("adet", "count"), ("olan", "that"),
    ("olmayan", "not"), ("ile", "with"), ("ve", "and"),
    ("veya", "or")] : List (String × String)).map
    (fun p => (p.1.data, p.2.data))

/-- Embedding of `simpleDictionaryTranslate`: lowercase the whole text,
then apply each dictionary replacement in order. -/
def simpleDictionaryTranslate (text : List Char) : List Char :=
  basicDictionary.foldl (fun acc p => replaceWord p.1 p.2 acc) (jsToLower text)

/-! translationUtils.ts: LLM translation with dictionary fallback -/

/-- The TranslationResult interface of translationUtils.ts. -/
structure TranslationResult where
  originalText : List Char
  translatedText : List Char
  wasTranslated : Bool
  confidence : Rat
  deriving DecidableEq, Repr

/-- The JSON body of a fulfilled translate-query response, as read by
translateTurkishToEnglishWithLLM (fields it does not read are elided). -/
structure TranslateRespData where
  status : List Char
  translated_text : Option (List Char)
  confidence : Option Rat
  deriving DecidableEq, Repr

/-- Settled outcome of one fetch of /api/indexing/translate-query.
The failure case covers everything that lands in the catch block by
throwing before the success return: a network rejection of fetch, a
non-ok HTTP status (the `!response.ok` throw), and a JSON parse error of
response.json(). -/
inductive TranslateFetchOutcome where
  | failure
  | ok (data : TranslateRespData)
  deriving DecidableEq, Repr

/-- JavaScript truthiness of the optional translated_text field:
data.translated_text is truthy when present and nonempty. -/
def truthyText : Option (List Char) → Bool
  | none => false
  | some l => !l.isEmpty

/-- Model of `data.confidence || 0.9`: absent (and the falsy number 0)
fall back to 0.9. -/
def confOr (c : Option Rat) : Rat :=
  match c with
  | some q => if q == 0 then (9 : Rat) / 10 else q
  | none => (9 : Rat) / 10

/-- Embedding of `translateTurkishToEnglishWithLLM`: the identity result
with confidence 1.0 on empty or non-Turkish text (without fetching);
otherwise the parsed server translation on a successful response with
status success and a truthy translated_text, and the dictionary
fallback with confidence 0.6 on every path that throws into the catch
block (fetch failure, non-ok status, parse error, non-success status, or
falsy translated_text). -/
def translateTurkishToEnglishWithLLM (text : List Char)
    (o : TranslateFetchOutcome) : TranslationResult :=
  if text.isEmpty || !(isTurkishText text) then
    { originalText := text, translatedText := text,
      wasTranslated := false, confidence := 1 }
  else
    match o with
    | .ok data =>
      if data.status == "success".data && truthyText data.translated_text then
        { originalText := text,
          translatedText := jsTrim (data.translated_text.getD []),
          wasTranslated := true,
          confidence := confOr data.confidence }
      else
        { originalText := text,
          translatedText := simpleDictionaryTranslate text,
          wasTranslated := simpleDictionaryTranslate text != text,
          confidence := (6 : Rat) / 10 }
    | .failure =>
      { originalText := text,
        translatedText := simpleDictionaryTranslate text,
        wasTranslated := simpleDictionaryTranslate text != text,
        confidence := (6 : Rat) / 10 }

/-- Number of fetches of /api/indexing/translate-query performed by one
call of translateTurkishToEnglishWithLLM: none when the early guard
returns the identity result, one otherwise. -/
def translateFetchCount (text : List Char) : Nat :=
  if text.isEmpty || !(isTurkishText text) then 0 else 1

/-- The final fallback record built by smartTranslateTurkishToEnglish
after all attempts are exhausted. -/
def smartFinalFallback (text : List Char) : TranslationResult :=
  { originalText := text,
    translatedText := simpleDictionaryTranslate text,
    wasTranslated := simpleDictionaryTranslate text != text,
    confidence := (1 : Rat) / 2 }

/-- The validity test of the retry loop of smartTranslateTurkishToEnglish:
a result is accepted when it was translated and its text is nonempty. -/
def acceptedResult (r : TranslationResult) : Bool :=
  r.wasTranslated && decide (0 < r.translatedText.length)

/-- The retry loop of smartTranslateTurkishToEnglish.  `oracle i` is the
settled outcome of the fetch performed by attempt number `i`; `attempt`
is the current attempt number and `remaining` the number of attempts still
allowed after it.  Returns the result together with the total number of
attempts performed (translateTurkishToEnglishWithLLM never throws — its
own catch block handles every failure — so the catch/backoff branch of
the loop is unreachable and each iteration only tests the result). -/
def smartTranslateAux (text : List Char) (oracle : Nat → TranslateFetchOutcome) :
    Nat → Nat → TranslationResult × Nat
  | attempt, remaining =>
    let r := translateTurkishToEnglishWithLLM text (oracle attempt)
    if acceptedResult r then (r, attempt + 1)
    else
      match remaining with
      | 0 => (smartFinalFallback text, attempt + 1)
      | m + 1 => smartTranslateAux text oracle (attempt + 1) m

/-- Embedding of `smartTranslateTurkishToEnglish` (default maxRetries is
2 at the call sites): run the retry loop starting at attempt 0 with
`maxRetries` further attempts allowed.  The second component is the
number of attempts performed. -/
def smartTranslateTurkishToEnglish (text : List Char)
    (oracle : Nat → TranslateFetchOutcome) (maxRetries : Nat) :
    TranslationResult × Nat :=
  smartTranslateAux text oracle 0 maxRetries

/-! DataThread view: leaf tables and their ordering -/

/-- A derivation trigger; of its fields only tableId (the id of the
table the derivation starts from) is used by the DataThread logic. -/
structure Trigger where
  tableId : List Char
  deriving DecidableEq, Repr

/-- The derive metadata of a derived table (only the trigger is used). -/
structure DeriveInfo where
  trigger : Trigger
  deriving DecidableEq, Repr

/-- A DictTable, restricted to the fields the DataThread leaf-table
computation reads: its id, its anchored flag and its derive metadata. -/
structure DictTable where
  id : List Char
  anchored : Bool
  derive : Option DeriveInfo
  deriving DecidableEq, Repr

/-- Does table `t2` derive from table `t`?  This is the JavaScript test
`t2.derive?.trigger.tableId == t.id` (false when t2.derive is absent,
because undefined == string is false). -/
def derivesFrom (t2 t : DictTable) : Bool :=
  match t2.derive with
  | some d => d.trigger.tableId == t.id
  | none => false

/-- Embedding of the leafTables construction of the DataThread view:
`[...tables.filter(t => (t.anchored && t.derive)),
  ...tables.filter(t => !tables.some(t2 => t2.derive?.trigger.tableId == t.id))]`. -/
def leafTables (tables : List DictTable) : List DictTable :=
  tables.filter (fun t => t.anchored && t.derive.isSome)
    ++ tables.filter (fun t => !(tables.any (fun t2 => derivesFrom t2 t)))

/-- Embedding of getAncestorOrders, parameterized by the getTriggers
function (imported from app/utils, outside this repository slice) and by
the tableOrder mapping: the orders of the trigger tables of the leaf,
followed by the order of the leaf itself. -/
def getAncestorOrders (triggers : DictTable → List Trigger)
    (tableOrder : List Char → Int) (leafTable : DictTable) : List Int :=
  (triggers leafTable).map (fun t => tableOrder t.tableId) ++ [tableOrder leafTable.id]

/-- Embedding of the leafTables.sort comparator: scan the two ancestor
sequences in lockstep, return the difference at the first differing
position, and the difference of the lengths when one sequence is
exhausted without a difference. -/
def compareAncestors : List Int → List Int → Int
  | a :: as, b :: bs => if a == b then compareAncestors as bs else a - b
  | as, bs => (as.length : Int) - (bs.length : Int)

/-- Strict lexicographic order on integer sequences in which a proper
prefix comes before every sequence extending it (the order the
specification describes for ancestor sequences). -/
def lexLt : List Int → List Int → Prop
  | _, [] => False
  | [], _ :: _ => True
  | a :: as, b :: bs => a < b ∨ (a = b ∧ lexLt as bs)

/-! NLPChat.tsx: loadIndexedDatabases -/

/-- An indexed-database summary; loadIndexedDatabases only inspects
database_id, and the connection_name field stands in for the remaining
interface fields (data_loader_type, counts, indexed_at, status), which
both components carry opaquely. -/
structure IndexedDatabase where
  database_id : Int
  connection_name : List Char
  deriving DecidableEq, Repr

/-- The JSON body of a fulfilled list-indexed-databases response, as
read by the two loadIndexedDatabases handlers. -/
structure ListDBData where
  status : List Char
  message : Option (List Char)
  databases : List IndexedDatabase
  deriving DecidableEq, Repr

/-- The message severity of the message view state of the components. -/
inductive MsgType where
  | success
  | error
  deriving DecidableEq, Repr

/-- The NLPChat view state touched by its loadIndexedDatabases handler:
the indexed-database list, the selected database id (number | null),
and the user-visible message state (which that handler never writes). -/
structure NLPState where
  indexedDatabases : List IndexedDatabase
  selectedDatabaseId : Option Int
  message : Option (MsgType × List Char)
  deriving DecidableEq, Repr

/-- JavaScript truthiness of `!selectedDatabaseId`: true when the value
is null or the (falsy) number 0. -/
def selFalsy : Option Int → Bool
  | none => true
  | some n => n == 0

/-- Embedding of NLPChat's loadIndexedDatabases, applied to the settled
outcome of the fetch (the error case covers a network rejection and a
response.json() parse error): on a success status it stores the received
list and, when the list is nonempty and no database is selected yet,
selects the first one; on a non-success status, or in the catch branch,
it only logs to the console and leaves the state unchanged. -/
def nlpLoadIndexedDatabases (prev : NLPState) (o : Except Unit ListDBData) :
    NLPState :=
  match o with
  | .error _ => prev
  | .ok data =>
    if data.status == "success".data then
      let st := { prev with indexedDatabases := data.databases }
      match data.databases with
      | [] => st
      | d :: _ =>
        if selFalsy prev.selectedDatabaseId then
          { st with selectedDatabaseId := some d.database_id }
        else st
    else prev

/-! DatabaseIndexer.tsx: fetch handlers -/

/-- The DatabaseIndexer view state touched by the handlers embedded
below: the indexed-database list, the message state, the search results
(kept as opaque records of their table_name), the selected schema
(opaque) and the schema dialog flag.  The loading/searching flags, set
and then unconditionally reset by the same handler in its finally
clause, are omitted. -/
structure DBIState where
  indexedDatabases : List IndexedDatabase
  message : Option (MsgType × List Char)
  searchResults : List (List Char)
  selectedSchema : Option (List Char)
  schemaDialogOpen : Bool
  deriving DecidableEq, Repr

/-- Model of JavaScript `data.message || defaultText`: an absent or
empty message string falls back to the default. -/
def msgOr (m : Option (List Char)) (dflt : List Char) : List Char :=
  match m with
  | some s => if s.isEmpty then dflt else s
  | none => dflt

/-- Embedding of DatabaseIndexer's loadIndexedDatabases: store the list
on a success status, otherwise set an error message (the server message,
or the default text); the catch branch sets the default error message. -/
def dbiLoadIndexedDatabases (prev : DBIState) (o : Except Unit ListDBData) :
    DBIState :=
  match o with
  | .error _ =>
    { prev with message := some (.error, "Failed to load indexed databases".data) }
  | .ok data =>
    if data.status == "success".data then
      { prev with indexedDatabases := data.databases }
    else
      { prev with
        message := some (.error, msgOr data.message "Failed to load indexed databases".data) }

/-- The JSON body of a fulfilled get-database-schema response (the
schema payload is carried opaquely). -/
structure SchemaRespData where
  status : List Char
  message : Option (List Char)
  schema : List Char
  deriving DecidableEq, Repr

/-- Embedding of DatabaseIndexer's handleViewSchema: on success store
the schema and open the schema dialog; on a non-success status or in the
catch branch set an error message. -/
def handleViewSchema (prev : DBIState) (o : Except Unit SchemaRespData) :
    DBIState :=
  match o with
  | .error _ =>
    { prev with message := some (.error, "Failed to load database schema".data) }
  | .ok data =>
    if data.status == "success".data then
      { prev with selectedSchema := some data.schema, schemaDialogOpen := true }
    else
      { prev with
        message := some (.error, msgOr data.message "Failed to load database schema".data) }

/-- The JSON body of a fulfilled search-tables response. -/
structure SearchRespData where
  status : List Char
  message : Option (List Char)
  results : List (List Char)
  deriving DecidableEq, Repr

/-- Embedding of DatabaseIndexer's handleSearchTables: a blank query
clears the results without fetching; otherwise store the results on
success, and set an error message on a non-success status or in the
catch branch. -/
def handleSearchTables (prev : DBIState) (query : List Char)
    (o : Except Unit SearchRespData) : DBIState :=
  if (jsTrim query).isEmpty then { prev with searchResults := [] }
  else
    match o with
    | .error _ => { prev with message := some (.error, "Search failed".data) }
    | .ok data =>
      if data.status == "success".data then
        { prev with searchResults := data.results }
      else
        { prev with message := some (.error, msgOr data.message "Search failed".data) }

/-- The JSON body of a fulfilled delete-database-index response. -/
structure StatusRespData where
  status : List Char
  message : Option (List Char)
  deriving DecidableEq, Repr

/-- Embedding of DatabaseIndexer's handleDeleteDatabase: nothing happens
when the confirm dialog is declined; otherwise set a success message on
success (the handler then re-runs loadIndexedDatabases, a separate
fetch not folded into this state transition) and an error message on a
non-success status or in the catch branch. -/
def handleDeleteDatabase (prev : DBIState) (confirmed : Bool)
    (o : Except Unit StatusRespData) : DBIState :=
  if !confirmed then prev
  else
    match o with
    | .error _ =>
      { prev with message := some (.error, "Failed to delete database index".data) }
    | .ok data =>
      if data.status == "success".data then
        { prev with message := some (.success, "Database index deleted successfully".data) }
      else
        { prev with
          message := some (.error, msgOr data.message "Failed to delete database index".data) }

/-! DatabaseIndexer.tsx: handleIndexDatabase and its progress polling -/

/-- The progress record of a fulfilled indexing-progress poll. -/
structure ProgressInfo where
  progress : Int
  message : List Char
  total_tables : Int
  processed_tables : Int
  status : List Char
  deriving DecidableEq, Repr

/-- The JSON body of a fulfilled indexing-progress response. -/
structure ProgressRespData where
  status : List Char
  progress : ProgressInfo
  deriving DecidableEq, Repr

/-- Does one tick of the progress-polling interval clear the interval?
Only when the poll fetch fulfills and parses, its outer status is
success, and the reported progress status is completed or error; a
failed poll is only logged to the console inside the tick's own catch. -/
def pollTerminates (o : Except Unit ProgressRespData) : Bool :=
  match o with
  | .error _ => false
  | .ok d =>
    d.status == "success".data
      && (d.progress.status == "completed".data || d.progress.status == "error".data)

/-- Settled outcome of the index-database fetch as seen by
handleIndexDatabase: the promise can reject (straight to the catch
block, before the clearInterval after the await), fulfill but fail to
parse (response.json() throws after the clearInterval), or fulfill and
parse. -/
inductive IndexFetchOutcome where
  | rejected
  | parseError
  | ok (data : StatusRespData) (indexed_tables : Int) (indexed_columns : Int)
  deriving DecidableEq, Repr

/-- The portion of the DatabaseIndexer state written by one run of
handleIndexDatabase, together with whether its progress-polling interval
is cleared by the end of the run. -/
structure IndexRunResult where
  message : Option (MsgType × List Char)
  intervalCleared : Bool
  progress : Int
  progressMessage : List Char
  indexDialogClosed : Bool
  deriving DecidableEq, Repr

/-- Embedding of handleIndexDatabase, applied to the tick outcomes of
the polling interval observed while the indexing request was pending and
to the settled outcome of that request.  The clearInterval after the
await runs only when the await does not throw, i.e. only when the fetch
fulfilled; the catch block does not clear the interval, so on a rejected
fetch the interval survives unless one of the polled progress responses
already terminated it. -/
def handleIndexDatabase (polls : List (Except Unit ProgressRespData))
    (o : IndexFetchOutcome) : IndexRunResult :=
  let polledClear := polls.any pollTerminates
  match o with
  | .rejected =>
    { message := some (.error, "Failed to index database".data),
      intervalCleared := polledClear,
      progress := 0,
      progressMessage := "Indexing failed".data,
      indexDialogClosed := false }
  | .parseError =>
    { message := some (.error, "Failed to index database".data),
      intervalCleared := true,
      progress := 0,
      progressMessage := "Indexing failed".data,
      indexDialogClosed := false }
  | .ok data indexed_tables indexed_columns =>
    if data.status == "success".data then
      { message := some (.success,
          ("Database indexed successfully! " ++ toString indexed_tables
            ++ " tables, " ++ toString indexed_columns ++ " columns").data),
        intervalCleared := true,
        progress := 100,
        progressMessage := "Database indexing completed successfully!".data,
        indexDialogClosed := true }
    else
      { message := some (.error, msgOr data.message "Failed to index database".data),
        intervalCleared := true,
        progress := 0,
        progressMessage := "Indexing failed".data,
        indexDialogClosed := false }

/-! Specification-side predicates -/

/-- The characterization of isTurkishText given by the specification:
the text is non-empty and either contains a character of the Turkish
character class, or its lowercased form contains one of the Turkish
words as a (contiguous) substring. -/
def isTurkishTextSpec (t : List Char) : Prop :=
  t ≠ [] ∧
    ((∃ c ∈ t, c ∈ turkishChars)
      ∨ ∃ w ∈ turkishWords, ∃ pre post, jsToLower t = pre ++ w ++ post)

/-- The initial NLPChat state: empty database list, no selection
(useState null), no message (useState null). -/
def nlpInitState : NLPState :=
  { indexedDatabases := [], selectedDatabaseId := none, message := none }

/-! Theorems -/

/-! Substring machinery -/

theorem isPrefixList_iff (w l : List Char) :
    isPrefixList w l = true ↔ ∃ post, l = w ++ post := by
  induction w generalizing l with
  | nil => simp [isPrefixList]
  | cons a w ih =>
    cases l with
    | nil => simp [isPrefixList]
    | cons b l =>
      simp only [isPrefixList, Bool.and_eq_true, beq_iff_eq, ih]
      constructor
      · rintro ⟨rfl, post, rfl⟩
        exact ⟨post, rfl⟩
      · rintro ⟨post, h⟩
        rw [List.cons_append] at h
        injection h with h1 h2
        exact ⟨h1.symm, post, h2⟩

theorem jsIncludes_iff (w l : List Char) :
    jsIncludes w l = true ↔ ∃ pre post, l = pre ++ w ++ post := by
  induction l with
  | nil =>
    simp only [jsIncludes, isPrefixList_iff]
    constructor
    · rintro ⟨post, hpost⟩
      exact ⟨[], post, hpost⟩
    · rintro ⟨pre, post, h⟩
      have h1 : pre ++ w = [] ∧ post = [] := List.append_eq_nil.mp h.symm
      have h2 : w = [] := (List.append_eq_nil.mp h1.1).2
      exact ⟨[], by simp [h2]⟩
  | cons c rest ih =>
    simp only [jsIncludes, Bool.or_eq_true, isPrefixList_iff, ih]
    constructor
    · rintro (⟨post, hpost⟩ | ⟨pre, post, h⟩)
      · exact ⟨[], post, by simpa using hpost⟩
      · exact ⟨c :: pre, post, by simp [h]⟩
    · rintro ⟨pre, post, h⟩
      cases pre with
      | nil => exact Or.inl ⟨post, by simpa using h⟩
      | cons p pre =>
        right
        have h' := h
        simp only [List.cons_append, List.cons_eq_cons] at h'
        exact ⟨pre, post, h'.2⟩

theorem mem_imp_jsIncludes_singleton {c : Char} {l : List Char} (h : c ∈ l) :
    jsIncludes [c] l = true := by
  rcases List.append_of_mem h with ⟨s, t, rfl⟩
  exact (jsIncludes_iff [c] (s ++ c :: t)).mpr ⟨s, t, by simp⟩

/-! The DataThread comparator -/

theorem compareAncestors_neg_iff (u v : List Int) :
    compareAncestors u v < 0 ↔ lexLt u v := by
  induction u generalizing v with
  | nil =>
    cases v with
    | nil => simp [compareAncestors, lexLt]
    | cons b bs =>
      simp only [compareAncestors, lexLt, List.length_nil, List.length_cons,
        iff_true]
      omega
  | cons a as ih =>
    cases v with
    | nil =>
      simp only [compareAncestors, lexLt, List.length_nil, List.length_cons,
        iff_false]
      omega
    | cons b bs =>
      simp only [compareAncestors, lexLt, beq_iff_eq]
      by_cases hab : a = b
      · simp [hab, ih]
      · rw [if_neg hab]
        constructor
        · intro h
          exact Or.inl (by omega)
        · rintro (h | ⟨rfl, -⟩)
          · omega
          · exact absurd rfl hab

theorem compareAncestors_eq_zero_iff (u v : List Int) :
    compareAncestors u v = 0 ↔ u = v := by
  induction u generalizing v with
  | nil =>
    cases v with
    | nil => simp [compareAncestors]
    | cons b bs =>
      simp only [compareAncestors, List.length_nil, List.length_cons]
      constructor
      · intro h
        omega
      · intro h
        exact absurd h (by simp)
  | cons a as ih =>
    cases v with
    | nil =>
      simp only [compareAncestors, List.length_nil, List.length_cons]
      constructor
      · intro h
        omega
      · intro h
        exact absurd h (by simp)
    | cons b bs =>
      simp only [compareAncestors, beq_iff_eq, List.cons_eq_cons]
      by_cases hab : a = b
      · simp [hab, ih]
      · rw [if_neg hab]
        constructor
        · intro h
          exact absurd (by omega : a = b) hab
        · rintro ⟨rfl, -⟩
          exact absurd rfl hab

/-- C1: in the DataThread view, the sort comparator over ancestor-order
sequences returns a negative value exactly when the first table's
ancestor-order sequence is strictly lexicographically smaller than the
second's (a proper prefix ordering before its extensions), and returns
zero exactly when the two sequences are equal — for every choice of the
getTriggers function and of the table-order mapping, and for every two
leaf tables. -/
theorem claim_C1_comparator_is_lex_order (triggers : DictTable → List Trigger)
    (tableOrder : List Char → Int) (a b : DictTable) :
    (compareAncestors (getAncestorOrders triggers tableOrder a)
        (getAncestorOrders triggers tableOrder b) < 0
      ↔ lexLt (getAncestorOrders triggers tableOrder a)
          (getAncestorOrders triggers tableOrder b))
    ∧ (compareAncestors (getAncestorOrders triggers tableOrder a)
        (getAncestorOrders triggers tableOrder b) = 0
      ↔ getAncestorOrders triggers tableOrder a
          = getAncestorOrders triggers tableOrder b) :=
  ⟨compareAncestors_neg_iff _ _, compareAncestors_eq_zero_iff _ _⟩

/-! The DataThread leaf-table list -/

/-- C10: the leafTables list is the concatenation of the anchored
derived tables and the tables no other table derives from, each in
original table order; a table satisfying both predicates occurs (at
least) twice in the list, hence is rendered as two separate threads. -/
theorem claim_C10_leafTables_concat_and_duplicates (tables : List DictTable) :
    leafTables tables
      = tables.filter (fun t => t.anchored && t.derive.isSome)
        ++ tables.filter (fun t => decide (¬ ∃ t2 ∈ tables, derivesFrom t2 t = true))
    ∧ ∀ t ∈ tables, t.anchored = true → t.derive.isSome = true →
        (¬ ∃ t2 ∈ tables, derivesFrom t2 t = true) →
        2 ≤ (leafTables tables).count t := by
  have hfilter : tables.filter (fun t => !(tables.any (fun t2 => derivesFrom t2 t)))
      = tables.filter (fun t => decide (¬ ∃ t2 ∈ tables, derivesFrom t2 t = true)) := by
    apply List.filter_congr
    intro t _
    by_cases h : ∃ t2 ∈ tables, derivesFrom t2 t = true
    · have hany : (tables.any fun t2 => derivesFrom t2 t) = true := List.any_eq_true.mpr h
      simp [hany, h]
    · have hany : (tables.any fun t2 => derivesFrom t2 t) = false := by
        rw [List.any_eq_false]
        intro x hx
        by_contra hc
        exact h ⟨x, hx, by simpa using hc⟩
      simp [hany, h]
  constructor
  · rw [leafTables, hfilter]
  · intro t ht hanch hder hnodep
    have h1 : t ∈ tables.filter (fun t => t.anchored && t.derive.isSome) :=
      List.mem_filter.mpr ⟨ht, by simp [hanch, hder]⟩
    have h2 : t ∈ tables.filter (fun t => !(tables.any (fun t2 => derivesFrom t2 t))) := by
      refine List.mem_filter.mpr ⟨ht, ?_⟩
      simp only [Bool.not_eq_true', List.any_eq_false]
      intro t2 ht2
      by_contra hcon
      exact hnodep ⟨t2, ht2, by simpa using hcon⟩
    have c1 : 1 ≤ (tables.filter (fun t => t.anchored && t.derive.isSome)).count t :=
      List.count_pos_iff.mpr h1
    have c2 : 1 ≤ (tables.filter (fun t => !(tables.any (fun t2 => derivesFrom t2 t)))).count t :=
      List.count_pos_iff.mpr h2
    rw [leafTables, List.count_append]
    omega

/-- Witness for C10 at a one-table list: the table is anchored, has a
derive trigger (from an id not in the list) and no dependents, so it
occurs twice in leafTables. -/
theorem claim_C10_witness :
    2 ≤ (leafTables [⟨"t1".data, true, some ⟨⟨"t0".data⟩⟩⟩]).count
        ⟨"t1".data, true, some ⟨⟨"t0".data⟩⟩⟩ :=
  (claim_C10_leafTables_concat_and_duplicates
      [⟨"t1".data, true, some ⟨⟨"t0".data⟩⟩⟩]).2
    ⟨"t1".data, true, some ⟨⟨"t0".data⟩⟩⟩
    (by decide) (by decide) (by decide) (by decide)

/-! Turkish detection -/

/-- C3: isTurkishText returns true exactly on non-empty text that
contains a Turkish character or whose lowercased form contains one of
the Turkish words as a substring; in particular it returns false on the
empty string. -/
theorem claim_C3_isTurkishText_characterization (t : List Char) :
    (isTurkishText t = true ↔ isTurkishTextSpec t) ∧ isTurkishText [] = false := by
  refine ⟨?_, by decide⟩
  cases t with
  | nil =>
    constructor
    · intro h
      exact absurd h (by decide)
    · rintro ⟨hne, -⟩
      exact absurd rfl hne
  | cons c ts =>
    rw [isTurkishText, if_neg (by simp)]
    by_cases hc : ∃ x ∈ c :: ts, x ∈ turkishChars
    · have hany : (c :: ts).any (fun x => turkishChars.contains x) = true := by
        rcases hc with ⟨x, hx, hmem⟩
        exact List.any_eq_true.mpr ⟨x, hx, List.elem_iff.mpr hmem⟩
      rw [if_pos hany]
      simp only [isTurkishTextSpec, true_iff]
      exact ⟨by simp, Or.inl hc⟩
    · have hany : (c :: ts).any (fun x => turkishChars.contains x) = false := by
        rw [List.any_eq_false]
        intro x hx
        by_contra hcon
        exact hc ⟨x, hx, List.elem_iff.mp (by simpa using hcon)⟩
      rw [if_neg (by simp only [hany]; decide)]
      simp only [isTurkishTextSpec, List.any_eq_true, jsIncludes_iff]
      constructor
      · rintro ⟨w, hw, pre, post, hsplit⟩
        exact ⟨by simp, Or.inr ⟨w, hw, pre, post, hsplit⟩⟩
      · rintro ⟨-, hc' | ⟨w, hw, pre, post, hsplit⟩⟩
        · exact absurd hc' hc
        · exact ⟨w, hw, pre, post, hsplit⟩

/-- C4: because the word list contains the single letters a and e and
matching is substring inclusion, every text whose lowercased form
contains an a or an e anywhere is classified as Turkish. -/
theorem claim_C4_substring_matching_over_detects (t : List Char)
    (h : 'a' ∈ jsToLower t ∨ 'e' ∈ jsToLower t) : isTurkishText t = true := by
  obtain ⟨c0, hc0w, hc0mem⟩ :
      ∃ c0, [c0] ∈ turkishWords ∧ c0 ∈ jsToLower t := by
    rcases h with h | h
    · exact ⟨'a', by decide, h⟩
    · exact ⟨'e', by decide, h⟩
  have hne : t ≠ [] := by
    intro hnil
    rw [hnil] at hc0mem
    simp [jsToLower] at hc0mem
  cases t with
  | nil => exact absurd rfl hne
  | cons c ts =>
    rw [isTurkishText, if_neg (by simp)]
    by_cases hany : (c :: ts).any (fun x => turkishChars.contains x) = true
    · rw [if_pos hany]
    · rw [if_neg hany]
      exact List.any_eq_true.mpr ⟨[c0], hc0w, mem_imp_jsIncludes_singleton hc0mem⟩

/-- Witness for C4: the English word customer is classified as Turkish. -/
theorem claim_C4_witness :
    ('a' ∈ jsToLower "customer".data ∨ 'e' ∈ jsToLower "customer".data)
      ∧ isTurkishText "customer".data = true :=
  ⟨by decide, claim_C4_substring_matching_over_detects "customer".data (by decide)⟩

/-! LLM translation guard -/

/-- C5: on empty or non-Turkish text, translateTurkishToEnglishWithLLM
returns the identity record with confidence 1.0, whatever the network
would have answered, and performs no fetch. -/
theorem claim_C5_translate_identity_on_non_turkish (text : List Char)
    (o : TranslateFetchOutcome) (h : text = [] ∨ isTurkishText text = false) :
    translateTurkishToEnglishWithLLM text o
      = { originalText := text, translatedText := text,
          wasTranslated := false, confidence := 1 }
    ∧ translateFetchCount text = 0 := by
  have hguard : (text.isEmpty || !(isTurkishText text)) = true := by
    rcases h with rfl | h
    · decide
    · simp [h]
  rw [translateTurkishToEnglishWithLLM.eq_def, if_pos hguard,
    translateFetchCount, if_pos hguard]
  exact ⟨rfl, rfl⟩

/-- Witness for C5 at the non-Turkish text xyz and a failing fetch. -/
theorem claim_C5_witness :
    translateTurkishToEnglishWithLLM "xyz".data TranslateFetchOutcome.failure
      = { originalText := "xyz".data, translatedText := "xyz".data,
          wasTranslated := false, confidence := 1 }
    ∧ translateFetchCount "xyz".data = 0 :=
  claim_C5_translate_identity_on_non_turkish "xyz".data
    TranslateFetchOutcome.failure (Or.inr (by decide))

/-! The dictionary fallback produces no uppercase letters -/

theorem jsCharToLower_no_upper (c d : Char) (h : d ∈ jsCharToLower c) :
    d ∉ upperLetters := by
  rw [jsCharToLower] at h
  cases hf : jsLowerMap.find? (fun p => p.1 == c) with
  | none =>
    rw [hf] at h
    simp only [List.mem_singleton] at h
    subst h
    intro hmem
    obtain ⟨p, hp, hpd⟩ := List.mem_map.mp hmem
    exact (List.find?_eq_none.mp hf p hp) (by simp [hpd])
  | some p =>
    rw [hf] at h
    have hpmem : p ∈ jsLowerMap := List.mem_of_find?_eq_some hf
    have key : ∀ q ∈ jsLowerMap, ∀ e ∈ q.2, e ∉ upperLetters := by decide
    exact key p hpmem d h

theorem jsToLower_no_upper (t : List Char) :
    ∀ d ∈ jsToLower t, d ∉ upperLetters := by
  intro d hd
  rw [jsToLower] at hd
  simp only [List.mem_flatten, List.mem_map] at hd
  obtain ⟨l, ⟨c, hc, rfl⟩, hdl⟩ := hd
  exact jsCharToLower_no_upper c d hdl

theorem replaceWordFuel_no_upper (w repl : List Char)
    (hrepl : ∀ d ∈ repl, d ∉ upperLetters) :
    ∀ (fuel : Nat) (prev : Option Char) (l : List Char),
      (∀ d ∈ l, d ∉ upperLetters) →
      ∀ d ∈ replaceWordFuel w repl fuel prev l, d ∉ upperLetters := by
  intro fuel
  induction fuel with
  | zero =>
    intro prev l hl d hd
    rw [replaceWordFuel] at hd
    exact hl d hd
  | succ n ih =>
    intro prev l hl d hd
    cases l with
    | nil =>
      rw [replaceWordFuel] at hd
      simp at hd
    | cons c rest =>
      rw [replaceWordFuel] at hd
      split at hd
      · rcases List.mem_append.mp hd with hmem | hmem
        · exact hrepl d hmem
        · refine ih _ _ ?_ d hmem
          intro e he
          exact hl e (List.mem_of_mem_drop he)
      · rcases List.mem_cons.mp hd with rfl | hmem
        · exact hl d (List.mem_cons_self _ _)
        · refine ih _ _ ?_ d hmem
          intro e he
          exact hl e (List.mem_cons_of_mem _ he)

theorem simpleDictionaryTranslate_no_upper (t : List Char) :
    ∀ d ∈ simpleDictionaryTranslate t, d ∉ upperLetters := by
  rw [simpleDictionaryTranslate]
  have hdict : ∀ p ∈ basicDictionary, ∀ d ∈ p.2, d ∉ upperLetters := by decide
  have hgen : ∀ (ps : List (List Char × List Char)),
      (∀ p ∈ ps, ∀ d ∈ p.2, d ∉ upperLetters) →
      ∀ (init : List Char), (∀ d ∈ init, d ∉ upperLetters) →
      ∀ d ∈ ps.foldl (fun acc p => replaceWord p.1 p.2 acc) init, d ∉ upperLetters := by
    intro ps
    induction ps with
    | nil =>
      intro _ init hinit d hd
      simpa using hinit d (by simpa using hd)
    | cons p ps ih =>
      intro hps init hinit d hd
      rw [List.foldl_cons] at hd
      refine ih (fun q hq => hps q (List.mem_cons_of_mem _ hq)) _ ?_ d hd
      exact replaceWordFuel_no_upper p.1 p.2
        (hps p (List.mem_cons_self _ _)) _ none init hinit
  exact hgen basicDictionary hdict (jsToLower t) (jsToLower_no_upper t)

theorem smartFinalFallback_wasTranslated_of_upper (text : List Char)
    (c : Char) (hc : c ∈ text) (hu : c ∈ upperLetters) :
    (smartFinalFallback text).wasTranslated = true := by
  simp only [smartFinalFallback]
  rw [bne_iff_ne]
  intro heq
  have hc' : c ∈ simpleDictionaryTranslate text := by rw [heq]; exact hc
  exact simpleDictionaryTranslate_no_upper text c hc' hu

/-! The retry loop of smartTranslateTurkishToEnglish -/

theorem translate_guard_identity (text : List Char) (o : TranslateFetchOutcome)
    (h : (text.isEmpty || !(isTurkishText text)) = true) :
    translateTurkishToEnglishWithLLM text o
      = { originalText := text, translatedText := text,
          wasTranslated := false, confidence := 1 } := by
  rw [translateTurkishToEnglishWithLLM.eq_def, if_pos h]

theorem smartTranslateAux_all_rejected (text : List Char)
    (oracle : Nat → TranslateFetchOutcome) :
    ∀ (m attempt : Nat),
      (∀ i, attempt ≤ i → i ≤ attempt + m →
        acceptedResult (translateTurkishToEnglishWithLLM text (oracle i)) = false) →
      smartTranslateAux text oracle attempt m
        = (smartFinalFallback text, attempt + m + 1) := by
  intro m
  induction m with
  | zero =>
    intro attempt h
    have h0 := h attempt le_rfl (by omega)
    rw [smartTranslateAux]
    simp [h0]
  | succ n ih =>
    intro attempt h
    have h0 := h attempt le_rfl (by omega)
    rw [smartTranslateAux]
    simp only [h0, Bool.false_eq_true, if_false]
    rw [ih (attempt + 1) (fun i h1 h2 => h i (by omega) (by omega))]
    have harith : attempt + 1 + n + 1 = attempt + (n + 1) + 1 := by omega
    rw [harith]

set_option maxHeartbeats 2000000 in
/-- C2 counterexample: with the network failing persistently, the
translation of the Turkish text ş (whose dictionary fallback equals the
input and is therefore never accepted) performs three attempts — three
fetches of the very same request — so a failed request is retried. -/
theorem claim_C2_counterexample :
    1 < (smartTranslateTurkishToEnglish "ş".data
          (fun _ => TranslateFetchOutcome.failure) 2).2
    ∧ translateFetchCount "ş".data = 1 := by
  constructor
  · decide
  · decide

set_option maxHeartbeats 2000000 in
/-- C2 amended: smartTranslateTurkishToEnglish does retry failed
requests: with every fetch failing, it performs maxRetries + 1 attempts
of the same request and then recovers with the dictionary fallback. -/
theorem claim_C2_amended_smart_translate_retries (n : Nat) :
    smartTranslateTurkishToEnglish "ş".data
        (fun _ => TranslateFetchOutcome.failure) n
      = (smartFinalFallback "ş".data, n + 1) := by
  have hfail : acceptedResult (translateTurkishToEnglishWithLLM "ş".data
      TranslateFetchOutcome.failure) = false := by decide
  have h := smartTranslateAux_all_rejected "ş".data
    (fun _ => TranslateFetchOutcome.failure) n 0 (fun i _ _ => hfail)
  simpa [smartTranslateTurkishToEnglish] using h

/-- C6: when every attempt yields an unaccepted result (as the guard
guarantees for non-Turkish input), smartTranslateTurkishToEnglish
exhausts all maxRetries + 1 attempts and returns the dictionary
fallback: its text is simpleDictionaryTranslate of the input, its
confidence is 0.5, and its wasTranslated flag is set exactly when the
fallback differs from the input — in particular whenever the input
contains an uppercase letter of the modelled alphabet. -/
theorem claim_C6_exhaustion_returns_dictionary_fallback (text : List Char)
    (oracle : Nat → TranslateFetchOutcome) (maxRetries : Nat)
    (h : ∀ i, i ≤ maxRetries →
      acceptedResult (translateTurkishToEnglishWithLLM text (oracle i)) = false) :
    smartTranslateTurkishToEnglish text oracle maxRetries
      = (smartFinalFallback text, maxRetries + 1)
    ∧ (smartFinalFallback text).translatedText = simpleDictionaryTranslate text
    ∧ (smartFinalFallback text).confidence = (1 : Rat) / 2
    ∧ ((smartFinalFallback text).wasTranslated = true
        ↔ simpleDictionaryTranslate text ≠ text)
    ∧ (isTurkishText text = false →
        ∀ (o : TranslateFetchOutcome),
          acceptedResult (translateTurkishToEnglishWithLLM text o) = false)
    ∧ (∀ c ∈ text, c ∈ upperLetters →
        (smartFinalFallback text).wasTranslated = true) := by
  refine ⟨?_, by simp only [smartFinalFallback], by simp only [smartFinalFallback], ?_, ?_, ?_⟩
  · have hmain := smartTranslateAux_all_rejected text oracle maxRetries 0
      (fun i _ h2 => h i (by omega))
    simpa [smartTranslateTurkishToEnglish] using hmain
  · simp only [smartFinalFallback]
    exact bne_iff_ne
  · intro hnt o
    rw [translate_guard_identity text o (by simp [hnt])]
    rfl
  · intro c hc hu
    exact smartFinalFallback_wasTranslated_of_upper text c hc hu

set_option maxHeartbeats 2000000 in
/-- Witness for C6 at the non-Turkish all-uppercase text XYZ with a
persistently failing network: all three attempts are exhausted and the
fallback reports wasTranslated = true. -/
theorem claim_C6_witness :
    smartTranslateTurkishToEnglish "XYZ".data
        (fun _ => TranslateFetchOutcome.failure) 2
      = (smartFinalFallback "XYZ".data, 3)
    ∧ (smartFinalFallback "XYZ".data).wasTranslated = true := by
  have hfail : acceptedResult (translateTurkishToEnglishWithLLM "XYZ".data
      TranslateFetchOutcome.failure) = false := by decide
  have h := claim_C6_exhaustion_returns_dictionary_fallback "XYZ".data
    (fun _ => TranslateFetchOutcome.failure) 2 (fun i _ => hfail)
  exact ⟨h.1, h.2.2.2.2.2 'X' (by decide) (by decide)⟩

/-! Fetch error handling of the components -/

/-- C7 counterexample: when the list-indexed-databases fetch of NLPChat
fails (network error), the catch branch only logs to the console: the
component state — in particular its user-visible message state — is left
entirely unchanged, so no user-visible error message is set in that
catch branch. -/
theorem claim_C7_counterexample :
    nlpLoadIndexedDatabases nlpInitState (Except.error ()) = nlpInitState
    ∧ (nlpLoadIndexedDatabases nlpInitState (Except.error ())).message = none := by
  constructor
  · rfl
  · rfl

/-- C7 amended: every fetch failure in DatabaseIndexer's handlers —
loadIndexedDatabases, handleIndexDatabase (both a rejected fetch and a
body that fails to parse), handleViewSchema, handleSearchTables and
handleDeleteDatabase — sets a user-visible error message, and a
server-reported failure status sets the server's message or a default;
but NLPChat's loadIndexedDatabases surfaces nothing: its catch branch
leaves the state unchanged. -/
theorem claim_C7_amended_indexer_surfaces_nlp_does_not :
    (∀ prev, (dbiLoadIndexedDatabases prev (Except.error ())).message
      = some (.error, "Failed to load indexed databases".data))
    ∧ (∀ prev m dbs,
        (dbiLoadIndexedDatabases prev (Except.ok ⟨"error".data, m, dbs⟩)).message
          = some (.error, msgOr m "Failed to load indexed databases".data))
    ∧ (∀ polls, (handleIndexDatabase polls .rejected).message
        = some (.error, "Failed to index database".data))
    ∧ (∀ polls, (handleIndexDatabase polls .parseError).message
        = some (.error, "Failed to index database".data))
    ∧ (∀ prev, (handleViewSchema prev (Except.error ())).message
        = some (.error, "Failed to load database schema".data))
    ∧ (∀ prev, (handleSearchTables prev "x".data (Except.error ())).message
        = some (.error, "Search failed".data))
    ∧ (∀ prev, (handleDeleteDatabase prev true (Except.error ())).message
        = some (.error, "Failed to delete database index".data))
    ∧ (∀ prev, nlpLoadIndexedDatabases prev (Except.error ()) = prev) := by
  refine ⟨fun prev => rfl, ?_, fun polls => rfl, fun polls => rfl,
    fun prev => rfl, fun prev => ?_, fun prev => rfl, fun prev => rfl⟩
  · intro prev m dbs
    have hst : (({ status := "error".data, message := m, databases := dbs } :
        ListDBData).status == "success".data) = false := by
      show (("error".data : List Char) == "success".data) = false
      decide
    rw [dbiLoadIndexedDatabases, if_neg (by rw [hst]; decide)]
  · rw [handleSearchTables, if_neg (by decide)]

/-- C8: the indexedDatabases state of NLPChat reflects the last
successful response of the list-indexed-databases request: it becomes
the received list exactly when the response parsed with status success,
and is left unchanged on a fetch or parse error and on any non-success
status. -/
theorem claim_C8_indexedDatabases_last_success (prev : NLPState)
    (data : ListDBData) :
    ((nlpLoadIndexedDatabases prev (Except.ok data)).indexedDatabases
      = if data.status == "success".data then data.databases
        else prev.indexedDatabases)
    ∧ (nlpLoadIndexedDatabases prev (Except.error ())).indexedDatabases
      = prev.indexedDatabases := by
  refine ⟨?_, rfl⟩
  rw [nlpLoadIndexedDatabases]
  by_cases h : data.status == "success".data
  · rw [if_pos h, if_pos h]
    cases hdb : data.databases with
    | nil => simp [hdb]
    | cons d rest =>
      by_cases hsel : selFalsy prev.selectedDatabaseId
      · simp [hsel]
      · simp [hsel]
  · rw [if_neg h, if_neg h]

/-! The progress-polling interval of handleIndexDatabase -/

/-- C9 counterexample: when the index-database fetch rejects and no
polled progress response has reported a terminal status, the catch
branch does not clear the polling interval — the fetch has settled
(rejected) but polling continues. -/
theorem claim_C9_counterexample :
    (handleIndexDatabase [] IndexFetchOutcome.rejected).intervalCleared = false :=
  rfl

/-- C9 amended: the polling interval is cleared exactly when the
index-database fetch fulfills (whether or not its body parses or reports
success) or some polled progress response reports status completed or
error; when the fetch rejects and no poll reported a terminal status,
the catch branch leaves the interval running. -/
theorem claim_C9_amended_interval_clearing (polls : List (Except Unit ProgressRespData))
    (o : IndexFetchOutcome) :
    (handleIndexDatabase polls o).intervalCleared
      = (polls.any pollTerminates || decide (o ≠ IndexFetchOutcome.rejected)) := by
  cases o with
  | rejected => simp [handleIndexDatabase]
  | parseError => simp [handleIndexDatabase]
  | ok data it ic =>
    rw [handleIndexDatabase]
    by_cases h : data.status == "success".data
    · rw [if_pos h]
      simp
    · rw [if_neg h]
      simp

end TomDax
